import Mathlib

/-!
Verification of the round-based market-clearing pipeline of the simulator
(source file `testes_completos/teste_0_0_3.py`).

The embedding follows the Python source closely:

* `Agente` keeps the two fields the settlement contract touches, the cash
  balance `saldo` (Python `float`, modelled as `ℚ`) and the holdings mapping
  `carteira` (a Python `dict`, modelled as `String → Option ℤ`, where `none`
  means the key is absent).  The behavioural fields (`sentimento`,
  `expectativa`, ...) only feed the out-of-scope decision formulas and are
  omitted.
* Agents are mutable objects referenced by orders and transactions; we model
  the heap of agents as a `List Agente` and a reference as an index.  A
  mutation of one agent through a reference is `updAgente`.
* Python `int` is modelled as `ℤ`, Python `float` as `ℚ` (the claims under
  scrutiny are about the algebra of the matching algorithm, not about
  floating-point rounding).
-/

namespace Simulador

/-- Agente of the source, restricted to the fields read or written by
`Transacao.executar` and by the matching engine: `nome`, `saldo`, `carteira`. -/
structure Agente where
  nome : String
  saldo : ℚ
  carteira : String → Option ℤ

/-- Mutation of the agent at index `i` through a reference, as Python attribute
assignment on a shared object.  Out of range indices (which cannot occur for a
Python reference) leave the heap unchanged. -/
def updAgente (ags : List Agente) (i : ℕ) (f : Agente → Agente) : List Agente :=
  match ags[i]? with
  | some a => ags.set i (f a)
  | none => ags

/-- `dict.__setitem__`: insert or overwrite key `k` with value `v`. -/
def dictInsert (c : String → Option ℤ) (k : String) (v : ℤ) : String → Option ℤ :=
  fun j => if j = k then some v else c j

/-- `del dict[k]`: remove key `k`. -/
def dictErase (c : String → Option ℤ) (k : String) : String → Option ℤ :=
  fun j => if j = k then none else c j

/-- `dict.get(k, 0)`. -/
def get0 (c : String → Option ℤ) (k : String) : ℤ :=
  (c k).getD 0

/-- Transacao of the source: buyer and seller are references (indices into the
agent heap). -/
structure Transacao where
  comprador : ℕ
  vendedor : ℕ
  ativo : String
  quantidade : ℤ
  preco_execucao : ℚ
deriving DecidableEq

/-- `self.comprador.saldo -= valor_total` with
`valor_total = self.quantidade * self.preco_execucao`. -/
def debitaComprador (t : Transacao) : Agente → Agente :=
  fun a => { a with saldo := a.saldo - (t.quantidade : ℚ) * t.preco_execucao }

/-- `self.vendedor.saldo += valor_total`. -/
def creditaVendedor (t : Transacao) : Agente → Agente :=
  fun a => { a with saldo := a.saldo + (t.quantidade : ℚ) * t.preco_execucao }

/-- `self.comprador.carteira[ativo] = self.comprador.carteira.get(ativo, 0) + quantidade`. -/
def carteiraComprador (t : Transacao) : Agente → Agente :=
  fun a =>
    { a with carteira := dictInsert a.carteira t.ativo (get0 a.carteira t.ativo + t.quantidade) }

/-- The guarded seller-side update: only `if self.ativo in self.vendedor.carteira`
is the holding decremented, and the entry is deleted when it reaches exactly 0;
when the seller holds no entry for the asset nothing happens to the seller. -/
def carteiraVendedor (t : Transacao) : Agente → Agente :=
  fun a =>
    match a.carteira t.ativo with
    | some q =>
        { a with carteira :=
            if q - t.quantidade = 0 then dictErase a.carteira t.ativo
            else dictInsert a.carteira t.ativo (q - t.quantidade) }
    | none => a

/-- `Transacao.executar` of the source: the four mutation statements in source
order, each applied through the corresponding agent reference. -/
def Transacao.executar (t : Transacao) (ags : List Agente) : List Agente :=
  updAgente
    (updAgente
      (updAgente
        (updAgente ags t.comprador (debitaComprador t))
        t.vendedor (creditaVendedor t))
      t.comprador (carteiraComprador t))
    t.vendedor (carteiraVendedor t)

/-- Executing a sequence of transactions in order. -/
def execSeq (ts : List Transacao) (ags : List Agente) : List Agente :=
  ts.foldl (fun s u => u.executar s) ags

/-- Total cash over all agents. -/
def totalSaldo (ags : List Agente) : ℚ :=
  (ags.map Agente.saldo).sum

/-- Units of instrument `k` held by one agent (an absent entry counts 0,
exactly as `dict.get(k, 0)`). -/
def carteiraEm (k : String) (a : Agente) : ℤ :=
  get0 a.carteira k

/-- Total holdings of instrument `k` over all agents. -/
def totalCarteira (ags : List Agente) (k : String) : ℤ :=
  (ags.map (carteiraEm k)).sum

/-- `SeqOk ts ags`: along the execution of the sequence `ts` from heap `ags`,
every transaction has a valid buyer reference and a seller who, at the moment
the transaction executes, holds an entry for the traded instrument. -/
def SeqOk : List Transacao → List Agente → Prop
  | [], _ => True
  | u :: us, ags =>
      u.comprador < ags.length ∧
      (∃ b, ags[u.vendedor]? = some b ∧ (b.carteira u.ativo).isSome = true) ∧
      SeqOk us (u.executar ags)

/-- Concrete two-agent heap used by several concrete checks. -/
def agA : Agente :=
  ⟨"A", 1000, fun _ => none⟩

/-- Concrete seller holding 2 units of "X". -/
def agB : Agente :=
  ⟨"B", 0, fun j => if j = "X" then some 2 else none⟩

/-- Concrete transaction: agent 0 buys 2 units of "X" from agent 1 at 50. -/
def t0 : Transacao :=
  ⟨0, 1, "X", 2, 50⟩

/-- Ordem of the source: side (`tipo`, a free string), issuing agent
(reference, modelled as an index into the agent heap), instrument, limit
price and remaining quantity. -/
structure Ordem where
  tipo : String
  agente : ℕ
  ativo : String
  preco_limite : ℚ
  quantidade : ℤ
deriving DecidableEq

/-- Mercado of the source, restricted to the `ativos` price mapping, the only
field the matching engine reads or writes.  (`fundos_imobiliarios` prices are
routed through the same `executar_ordens`/`mercado.ativos` path by the round
driver, and `historico_inflacao` is reporting only.) -/
structure Mercado where
  ativos : String → ℚ

/-- OrderBook of the source: two dictionaries keyed by instrument, `none`
meaning the key is absent. -/
structure OrderBook where
  ordens_compra : String → Option (List Ordem)
  ordens_venda : String → Option (List Ordem)

/-- `dict.setdefault(k, []).append(o)`. -/
def setdefaultAppend (d : String → Option (List Ordem)) (k : String) (o : Ordem) :
    String → Option (List Ordem) :=
  fun j => if j = k then some ((d k).getD [] ++ [o]) else d j

/-- `OrderBook.adicionar_ordem` of the source: append to the BUY dictionary
when `tipo == "compra"`, to the SELL dictionary when `tipo == "venda"`, and
silently do nothing otherwise.  There is no validation of price or quantity. -/
def OrderBook.adicionar_ordem (book : OrderBook) (ordem : Ordem) : OrderBook :=
  if ordem.tipo = "compra" then
    { book with ordens_compra := setdefaultAppend book.ordens_compra ordem.ativo ordem }
  else if ordem.tipo = "venda" then
    { book with ordens_venda := setdefaultAppend book.ordens_venda ordem.ativo ordem }
  else book

/-- Comparator of the BUY sort: `sort(key=preco_limite, reverse=True)` keeps
`a` before `b` when `b.preco_limite ≤ a.preco_limite` (descending); Python's
sort is stable, as is `List.mergeSort`. -/
def leCompra (a b : Ordem) : Bool :=
  decide (b.preco_limite ≤ a.preco_limite)

/-- Comparator of the SELL sort: `sort(key=preco_limite)` (ascending). -/
def leVenda (a b : Ordem) : Bool :=
  decide (a.preco_limite ≤ b.preco_limite)

/-- Result of one clearing pass: the two (post-pass) resident order lists for
the instrument, the market, the agent heap, and the list of transactions the
pass constructed and executed, in execution order (the Python method builds
each `Transacao` and calls `executar` on it; this trace records them). -/
structure ResultadoClear where
  compra : List Ordem
  venda : List Ordem
  mercado : Mercado
  agentes : List Agente
  transacoes : List Transacao

/-- The `while` loop of `executar_ordens`.  While both lists are non-empty,
peek both heads; if the best BUY limit is `≥` the best SELL limit, execute a
transaction at the midpoint price for the minimum of the two remaining
quantities, write the execution price into the market, decrement both head
quantities and pop each head that reaches exactly 0; otherwise stop. -/
def executarLoop (ativo : String) :
    List Ordem → List Ordem → Mercado → List Agente → ResultadoClear
  | [], venda, mercado, agentes => ⟨[], venda, mercado, agentes, []⟩
  | compra, [], mercado, agentes => ⟨compra, [], mercado, agentes, []⟩
  | oc :: cs, ov :: vs, mercado, agentes =>
    if ov.preco_limite ≤ oc.preco_limite then
      let r := executarLoop ativo
        (if oc.quantidade - min oc.quantidade ov.quantidade = 0 then cs
         else { oc with quantidade := oc.quantidade - min oc.quantidade ov.quantidade } :: cs)
        (if ov.quantidade - min oc.quantidade ov.quantidade = 0 then vs
         else { ov with quantidade := ov.quantidade - min oc.quantidade ov.quantidade } :: vs)
        ⟨fun k => if k = ativo then (oc.preco_limite + ov.preco_limite) / 2
          else mercado.ativos k⟩
        (Transacao.executar
          ⟨oc.agente, ov.agente, ativo, min oc.quantidade ov.quantidade,
            (oc.preco_limite + ov.preco_limite) / 2⟩ agentes)
      { r with transacoes :=
          ⟨oc.agente, ov.agente, ativo, min oc.quantidade ov.quantidade,
            (oc.preco_limite + ov.preco_limite) / 2⟩ :: r.transacoes }
    else ⟨oc :: cs, ov :: vs, mercado, agentes, []⟩
termination_by compra venda _ _ => compra.length + venda.length
decreasing_by
  rcases le_total oc.quantidade ov.quantidade with h | h
  · rw [min_eq_left h, sub_self, dif_pos rfl]
    split <;> simp only [List.length_cons] <;> omega
  · rw [min_eq_right h, sub_self, dif_pos rfl]
    split <;> simp only [List.length_cons] <;> omega

/-- `OrderBook.executar_ordens` of the source: only when the instrument is a
key of both dictionaries, sort BUY orders by limit price descending and SELL
orders ascending (both stably, in place: the sorted lists are written back to
the book even when no trade happens) and run the matching loop; the final
lists, market and agents replace the previous state.  The method itself has no
return statement (see `executar_ordens_ret`); the transaction trace is
returned here so the effects can be stated. -/
def executar_ordens (book : OrderBook) (ativo : String) (mercado : Mercado)
    (agentes : List Agente) : OrderBook × Mercado × List Agente × List Transacao :=
  match book.ordens_compra ativo, book.ordens_venda ativo with
  | some lc, some lv =>
      let r := executarLoop ativo (lc.mergeSort leCompra) (lv.mergeSort leVenda)
        mercado agentes
      (⟨fun k => if k = ativo then some r.compra else book.ordens_compra k,
        fun k => if k = ativo then some r.venda else book.ordens_venda k⟩,
       r.mercado, r.agentes, r.transacoes)
  | _, _ => (book, mercado, agentes, [])

/-- The value the Python caller of `executar_ordens` receives: the method has
no `return` statement, so every call evaluates to `None` — never to a list of
transactions. -/
def executar_ordens_ret (_book : OrderBook) (_ativo : String) (_mercado : Mercado)
    (_agentes : List Agente) : Option (List Transacao) :=
  none

/-- Concrete BUY order used in concrete checks: agent 0 buys 2 of "X" at 51. -/
def ordemCompraX : Ordem :=
  ⟨"compra", 0, "X", 51, 2⟩

/-- Concrete SELL order used in concrete checks: agent 1 sells 2 of "X" at 49. -/
def ordemVendaX : Ordem :=
  ⟨"venda", 1, "X", 49, 2⟩

/-- Concrete market with every price 50. -/
def mercado50 : Mercado :=
  ⟨fun _ => 50⟩

/-- Concrete book for the no-crossing scenario: BUY 1 @ 9 and SELL 1 @ 10. -/
def bookSemCruzamento : OrderBook :=
  ⟨fun k => if k = "X" then some [⟨"compra", 0, "X", 9, 1⟩] else none,
   fun k => if k = "X" then some [⟨"venda", 1, "X", 10, 1⟩] else none⟩

/-- Concrete crossing book: BUY 2 @ 51 against SELL 2 @ 49 on "X". -/
def bookCruzamento : OrderBook :=
  ⟨fun k => if k = "X" then some [ordemCompraX] else none,
   fun k => if k = "X" then some [ordemVendaX] else none⟩

/-- Concrete no-crossing book on "Y": BUY 3 @ 8 against SELL 3 @ 12. -/
def bookSemCruzamentoY : OrderBook :=
  ⟨fun k => if k = "Y" then some [⟨"compra", 0, "Y", 8, 3⟩] else none,
   fun k => if k = "Y" then some [⟨"venda", 1, "Y", 12, 3⟩] else none⟩

/-- Concrete third agent holding 5 units of "X". -/
def agC : Agente :=
  ⟨"C", 500, fun j => if j = "X" then some 5 else none⟩

/-- Price-time scenario: earlier BUY at 10 (agent 0). -/
def ordemB1 : Ordem :=
  ⟨"compra", 0, "X", 10, 1⟩

/-- Price-time scenario: later BUY at the same price 10 (agent 1). -/
def ordemB2 : Ordem :=
  ⟨"compra", 1, "X", 10, 1⟩

/-- Price-time scenario: one SELL at 9 with quantity enough for only one. -/
def ordemS1 : Ordem :=
  ⟨"venda", 2, "X", 9, 1⟩

/-- Book of the price-time scenario: BUYs in submission order, one SELL. -/
def bookPrioridade : OrderBook :=
  ⟨fun k => if k = "X" then some [ordemB1, ordemB2] else none,
   fun k => if k = "X" then some [ordemS1] else none⟩

/-- `gerar_e_adicionar_ordens` of the round driver: each agent's decision
function (`gerar_ordem`, out of the claims' scope: it draws random numbers and
uses behavioural formulas) produces one order per instrument, and every
produced order is submitted with `adicionar_ordem` in iteration order.  The
produced orders are taken here as the input list; submission is the fold of
`adicionar_ordem` over them. -/
def gerar_e_adicionar_ordens (ordens : List Ordem) (book : OrderBook) : OrderBook :=
  ordens.foldl OrderBook.adicionar_ordem book

/-- `aplicar_inflacao` of the source: every asset price is multiplied by
`1 + taxa_diaria`.  (The source derives the daily rate from the monthly one by
real exponentiation, `(1+m)^(1/30) - 1`, on floats; the already-derived daily
rate is the input here.) -/
def aplicar_inflacao (mercado : Mercado) (taxa_diaria : ℚ) : Mercado :=
  ⟨fun k => mercado.ativos k * (1 + taxa_diaria)⟩

/-- `executar_ordens_e_atualizar_precos` of the source: run `executar_ordens`
once per instrument, in the fixed iteration order of the instrument list
(`mercado.ativos` keys then the fund names), threading book, market and
agents; the traces are concatenated. -/
def executar_ordens_e_atualizar_precos :
    List String → OrderBook → Mercado → List Agente →
      OrderBook × Mercado × List Agente × List Transacao
  | [], book, mercado, agentes => (book, mercado, agentes, [])
  | ativo :: resto, book, mercado, agentes =>
      let r := executar_ordens book ativo mercado agentes
      let r2 := executar_ordens_e_atualizar_precos resto r.1 r.2.1 r.2.2.1
      (r2.1, r2.2.1, r2.2.2.1, r.2.2.2 ++ r2.2.2.2)

/-- The state `main` threads through its round loop: the one order book it
constructs before the loop, the market, and the agents. -/
structure SimState where
  order_book : OrderBook
  mercado : Mercado
  agentes : List Agente

/-- One round of `main`: apply the round's inflation to the market, submit the
round's decided orders into the (carried-over) book, then clear every
instrument. -/
def rodada (instrumentos : List String) (taxa_diaria : ℚ) (novas : List Ordem)
    (st : SimState) : SimState × List Transacao :=
  let r := executar_ordens_e_atualizar_precos instrumentos
    (gerar_e_adicionar_ordens novas st.order_book)
    (aplicar_inflacao st.mercado taxa_diaria) st.agentes
  (⟨r.1, r.2.1, r.2.2.1⟩, r.2.2.2)

/-- The round loop of `main`: fold of `rodada` over the per-round inputs
(daily inflation rate and decided orders); the book of the resulting state is
whatever the rounds left there — it is never reset between rounds. -/
def simular (instrumentos : List String) (rodadas : List (ℚ × List Ordem))
    (st : SimState) : SimState :=
  rodadas.foldl (fun s par => (rodada instrumentos par.1 par.2 s).1) st

theorem length_updAgente (ags : List Agente) (i : ℕ) (f : Agente → Agente) :
    (updAgente ags i f).length = ags.length := by
  unfold updAgente
  cases h : ags[i]? with
  | some a => simp [List.length_set]
  | none => rfl

theorem updAgente_get_ne (ags : List Agente) (i j : ℕ) (f : Agente → Agente)
    (hne : i ≠ j) : (updAgente ags i f)[j]? = ags[j]? := by
  unfold updAgente
  cases h : ags[i]? with
  | some a => exact List.getElem?_set_ne hne
  | none => rfl

theorem updAgente_get_self (ags : List Agente) (i : ℕ) (f : Agente → Agente)
    (a : Agente) (h : ags[i]? = some a) : (updAgente ags i f)[i]? = some (f a) := by
  unfold updAgente
  rw [h]
  rcases List.getElem?_eq_some_iff.mp h with ⟨hi, _⟩
  exact List.getElem?_set_self (by simpa using hi)

theorem sum_map_set {M : Type} [AddCommGroup M] (g : Agente → M) :
    ∀ (l : List Agente) (i : ℕ) (a b : Agente), l[i]? = some a →
      ((l.set i b).map g).sum = (l.map g).sum - g a + g b := by
  intro l
  induction l with
  | nil => intro i a b h; simp at h
  | cons x xs ih =>
      intro i a b h
      cases i with
      | zero =>
          simp only [List.getElem?_cons_zero, Option.some.injEq] at h
          subst h
          simp only [List.set_cons_zero, List.map_cons, List.sum_cons]
          abel
      | succ n =>
          simp only [List.getElem?_cons_succ] at h
          simp only [List.set_cons_succ, List.map_cons, List.sum_cons, ih n a b h]
          abel

theorem sum_map_updAgente {M : Type} [AddCommGroup M] (g : Agente → M)
    (ags : List Agente) (i : ℕ) (f : Agente → Agente) (a : Agente)
    (h : ags[i]? = some a) :
    ((updAgente ags i f).map g).sum = (ags.map g).sum - g a + g (f a) := by
  unfold updAgente
  rw [h]
  exact sum_map_set g ags i a (f a) h

theorem sum_map_updAgente_invariant {M : Type} [AddCommGroup M] (g : Agente → M)
    (ags : List Agente) (i : ℕ) (f : Agente → Agente)
    (hf : ∀ a, g (f a) = g a) :
    ((updAgente ags i f).map g).sum = (ags.map g).sum := by
  unfold updAgente
  cases h : ags[i]? with
  | some a => rw [sum_map_set g ags i a (f a) h, hf]; abel
  | none => rfl

theorem debita_saldo (t : Transacao) (a : Agente) :
    (debitaComprador t a).saldo = a.saldo - (t.quantidade : ℚ) * t.preco_execucao := rfl

theorem credita_saldo (t : Transacao) (a : Agente) :
    (creditaVendedor t a).saldo = a.saldo + (t.quantidade : ℚ) * t.preco_execucao := rfl

theorem debita_carteira (t : Transacao) (a : Agente) :
    (debitaComprador t a).carteira = a.carteira := rfl

theorem credita_carteira (t : Transacao) (a : Agente) :
    (creditaVendedor t a).carteira = a.carteira := rfl

theorem carteiraComprador_saldo (t : Transacao) (a : Agente) :
    (carteiraComprador t a).saldo = a.saldo := rfl

theorem carteiraVendedor_saldo (t : Transacao) (a : Agente) :
    (carteiraVendedor t a).saldo = a.saldo := by
  cases h : a.carteira t.ativo <;> simp [carteiraVendedor, h]

theorem get0_carteiraComprador (t : Transacao) (a : Agente) (k : String) :
    get0 (carteiraComprador t a).carteira k
      = get0 a.carteira k + (if k = t.ativo then t.quantidade else 0) := by
  simp only [carteiraComprador, dictInsert, get0]
  split
  · rename_i hk
    subst hk
    simp
  · simp

theorem carteiraVendedor_presente (t : Transacao) (a : Agente) (q : ℤ)
    (h : a.carteira t.ativo = some q) :
    (carteiraVendedor t a).carteira =
      (if q - t.quantidade = 0 then dictErase a.carteira t.ativo
       else dictInsert a.carteira t.ativo (q - t.quantidade)) := by
  simp [carteiraVendedor, h]

theorem get0_carteiraVendedor (t : Transacao) (a : Agente)
    (hp : (a.carteira t.ativo).isSome = true) (k : String) :
    get0 (carteiraVendedor t a).carteira k
      = get0 a.carteira k - (if k = t.ativo then t.quantidade else 0) := by
  rcases h : a.carteira t.ativo with _ | q
  · rw [h] at hp
    simp at hp
  · rw [carteiraVendedor_presente t a q h]
    split
    · rename_i hz
      simp only [dictErase, get0]
      split
      · rename_i hk
        subst hk
        rw [h]
        simp
        omega
      · simp
    · rename_i hz
      simp only [dictInsert, get0]
      split
      · rename_i hk
        subst hk
        rw [h]
        simp
      · simp

theorem get0_carteiraVendedor_ausente (t : Transacao) (a : Agente)
    (hp : a.carteira t.ativo = none) :
    (carteiraVendedor t a) = a := by
  simp [carteiraVendedor, hp]

theorem length_executar (t : Transacao) (ags : List Agente) :
    (t.executar ags).length = ags.length := by
  simp only [Transacao.executar, length_updAgente]

theorem totalSaldo_executar (t : Transacao) (ags : List Agente)
    (hc : t.comprador < ags.length) (hv : t.vendedor < ags.length) :
    totalSaldo (t.executar ags) = totalSaldo ags := by
  have h0 : ags[t.comprador]? = some ags[t.comprador] := List.getElem?_eq_getElem hc
  set ags1 := updAgente ags t.comprador (debitaComprador t) with hags1
  have l1 : ags1.length = ags.length := length_updAgente _ _ _
  have hv1 : t.vendedor < ags1.length := by rw [l1]; exact hv
  have h1 : ags1[t.vendedor]? = some ags1[t.vendedor] := List.getElem?_eq_getElem hv1
  set ags2 := updAgente ags1 t.vendedor (creditaVendedor t) with hags2
  have s1 : (ags1.map Agente.saldo).sum
      = (ags.map Agente.saldo).sum - ags[t.comprador].saldo
        + (debitaComprador t ags[t.comprador]).saldo := by
    rw [hags1]
    exact sum_map_updAgente Agente.saldo ags _ _ _ h0
  have s2 : (ags2.map Agente.saldo).sum
      = (ags1.map Agente.saldo).sum - ags1[t.vendedor].saldo
        + (creditaVendedor t ags1[t.vendedor]).saldo := by
    rw [hags2]
    exact sum_map_updAgente Agente.saldo ags1 _ _ _ h1
  unfold Transacao.executar totalSaldo
  rw [← hags1, ← hags2]
  rw [sum_map_updAgente_invariant Agente.saldo _ _ _ (carteiraVendedor_saldo t)]
  rw [sum_map_updAgente_invariant Agente.saldo _ _ _ (carteiraComprador_saldo t)]
  rw [s2, s1, credita_saldo, debita_saldo]
  abel

theorem executar_get_comprador (t : Transacao) (ags : List Agente) (a : Agente)
    (ha : ags[t.comprador]? = some a) (hne : t.comprador ≠ t.vendedor) :
    (t.executar ags)[t.comprador]?
      = some (carteiraComprador t (debitaComprador t a)) := by
  have e1 : (updAgente ags t.comprador (debitaComprador t))[t.comprador]?
      = some (debitaComprador t a) := updAgente_get_self _ _ _ _ ha
  have e2 : (updAgente (updAgente ags t.comprador (debitaComprador t))
        t.vendedor (creditaVendedor t))[t.comprador]? = some (debitaComprador t a) := by
    rw [updAgente_get_ne _ _ _ _ (Ne.symm hne)]
    exact e1
  have e3 := updAgente_get_self _ t.comprador (carteiraComprador t) _ e2
  unfold Transacao.executar
  rw [updAgente_get_ne _ _ _ _ (Ne.symm hne)]
  exact e3

theorem executar_get_vendedor (t : Transacao) (ags : List Agente) (b : Agente)
    (hb : ags[t.vendedor]? = some b) (hne : t.comprador ≠ t.vendedor) :
    (t.executar ags)[t.vendedor]?
      = some (carteiraVendedor t (creditaVendedor t b)) := by
  have e1 : (updAgente ags t.comprador (debitaComprador t))[t.vendedor]? = some b := by
    rw [updAgente_get_ne _ _ _ _ hne]
    exact hb
  have e2 := updAgente_get_self _ t.vendedor (creditaVendedor t) _ e1
  have e3 : (updAgente (updAgente (updAgente ags t.comprador (debitaComprador t))
        t.vendedor (creditaVendedor t)) t.comprador (carteiraComprador t))[t.vendedor]?
      = some (creditaVendedor t b) := by
    rw [updAgente_get_ne _ _ _ _ hne]
    exact e2
  unfold Transacao.executar
  exact updAgente_get_self _ t.vendedor (carteiraVendedor t) _ e3

theorem totalCarteira_executar (t : Transacao) (ags : List Agente) (b : Agente)
    (hc : t.comprador < ags.length) (hb : ags[t.vendedor]? = some b)
    (hp : (b.carteira t.ativo).isSome = true) (k : String) :
    totalCarteira (t.executar ags) k = totalCarteira ags k := by
  set ags1 := updAgente ags t.comprador (debitaComprador t) with hags1
  set ags2 := updAgente ags1 t.vendedor (creditaVendedor t) with hags2
  have l2 : ags2.length = ags.length := by
    rw [hags2, hags1, length_updAgente, length_updAgente]
  have hc2 : t.comprador < ags2.length := by rw [l2]; exact hc
  have h2 : ags2[t.comprador]? = some ags2[t.comprador] := List.getElem?_eq_getElem hc2
  set a3 := ags2[t.comprador] with ha3
  set ags3 := updAgente ags2 t.comprador (carteiraComprador t) with hags3
  have hfinal : ∃ a4, ags3[t.vendedor]? = some a4 ∧ (a4.carteira t.ativo).isSome = true := by
    rcases Decidable.em (t.comprador = t.vendedor) with heq | hne
    · refine ⟨carteiraComprador t a3, ?_, ?_⟩
      · rw [hags3, ← heq]
        exact updAgente_get_self _ _ _ _ h2
      · simp [carteiraComprador, dictInsert]
    · have e1 : ags1[t.vendedor]? = some b := by
        rw [hags1, updAgente_get_ne _ _ _ _ hne]
        exact hb
      have e2 : ags2[t.vendedor]? = some (creditaVendedor t b) := by
        rw [hags2]
        exact updAgente_get_self _ _ _ _ e1
      refine ⟨creditaVendedor t b, ?_, hp⟩
      rw [hags3, updAgente_get_ne _ _ _ _ hne]
      exact e2
  rcases hfinal with ⟨a4, h4, hp4⟩
  have s1 : (ags1.map (carteiraEm k)).sum = (ags.map (carteiraEm k)).sum := by
    rw [hags1]
    exact sum_map_updAgente_invariant (carteiraEm k) _ _ _ (fun a => rfl)
  have s2 : (ags2.map (carteiraEm k)).sum = (ags1.map (carteiraEm k)).sum := by
    rw [hags2]
    exact sum_map_updAgente_invariant (carteiraEm k) _ _ _ (fun a => rfl)
  have s3 : (ags3.map (carteiraEm k)).sum
      = (ags2.map (carteiraEm k)).sum - carteiraEm k a3
        + carteiraEm k (carteiraComprador t a3) := by
    rw [hags3]
    exact sum_map_updAgente (carteiraEm k) ags2 _ _ _ h2
  have s4 : ((updAgente ags3 t.vendedor (carteiraVendedor t)).map (carteiraEm k)).sum
      = (ags3.map (carteiraEm k)).sum - carteiraEm k a4
        + carteiraEm k (carteiraVendedor t a4) :=
    sum_map_updAgente (carteiraEm k) ags3 _ _ _ h4
  have d3 : carteiraEm k (carteiraComprador t a3)
      = carteiraEm k a3 + (if k = t.ativo then t.quantidade else 0) := by
    simpa [carteiraEm] using get0_carteiraComprador t a3 k
  have d4 : carteiraEm k (carteiraVendedor t a4)
      = carteiraEm k a4 - (if k = t.ativo then t.quantidade else 0) := by
    simpa [carteiraEm] using get0_carteiraVendedor t a4 hp4 k
  unfold Transacao.executar totalCarteira
  rw [← hags1, ← hags2, ← hags3, s4, s3, s2, s1, d3, d4]
  ring

theorem totalCarteira_execSeq (ts : List Transacao) (ags : List Agente)
    (hts : SeqOk ts ags) (k : String) :
    totalCarteira (execSeq ts ags) k = totalCarteira ags k := by
  induction ts generalizing ags with
  | nil => rfl
  | cons u us ih =>
      simp only [SeqOk] at hts
      rcases hts with ⟨hc, ⟨b, hb, hp⟩, hrest⟩
      have hstep : execSeq (u :: us) ags = execSeq us (u.executar ags) := rfl
      rw [hstep, ih _ hrest, totalCarteira_executar u ags b hc hb hp k]

theorem totalSaldo_execSeq (ts : List Transacao) (ags : List Agente)
    (hts : ∀ u ∈ ts, u.comprador < ags.length ∧ u.vendedor < ags.length) :
    totalSaldo (execSeq ts ags) = totalSaldo ags := by
  induction ts generalizing ags with
  | nil => rfl
  | cons u us ih =>
      have h1 := hts u (by simp)
      have hstep : execSeq (u :: us) ags = execSeq us (u.executar ags) := rfl
      rw [hstep, ih (u.executar ags) ?_, totalSaldo_executar u ags h1.1 h1.2]
      intro w hw
      have hw2 := hts w (by simp [hw])
      rw [length_executar]
      exact hw2

theorem executarLoop_nil_venda (ativo : String) (compra : List Ordem)
    (mercado : Mercado) (agentes : List Agente) :
    executarLoop ativo compra [] mercado agentes
      = ⟨compra, [], mercado, agentes, []⟩ := by
  cases compra with
  | nil => rw [executarLoop.eq_1]
  | cons oc cs => exact executarLoop.eq_2 ativo (oc :: cs) mercado agentes (by simp)

theorem executarLoop_parada (ativo : String) (oc ov : Ordem) (cs vs : List Ordem)
    (mercado : Mercado) (agentes : List Agente)
    (h : ¬ ov.preco_limite ≤ oc.preco_limite) :
    executarLoop ativo (oc :: cs) (ov :: vs) mercado agentes
      = ⟨oc :: cs, ov :: vs, mercado, agentes, []⟩ := by
  rw [executarLoop.eq_3, if_neg h]

theorem executarLoop_noop (ativo : String) (compra venda : List Ordem)
    (mercado : Mercado) (agentes : List Agente)
    (h : ∀ oc ∈ compra, ∀ ov ∈ venda, oc.preco_limite < ov.preco_limite) :
    executarLoop ativo compra venda mercado agentes
      = ⟨compra, venda, mercado, agentes, []⟩ := by
  cases compra with
  | nil => rw [executarLoop.eq_1]
  | cons oc cs =>
      cases venda with
      | nil => exact executarLoop_nil_venda ativo (oc :: cs) mercado agentes
      | cons ov vs =>
          exact executarLoop_parada ativo oc ov cs vs mercado agentes
            (not_le.mpr (h oc (by simp) ov (by simp)))

theorem executarLoop_parada_final (ativo : String) (compra venda : List Ordem)
    (mercado : Mercado) (agentes : List Agente) :
    ∀ oc cs ov vs,
      (executarLoop ativo compra venda mercado agentes).compra = oc :: cs →
      (executarLoop ativo compra venda mercado agentes).venda = ov :: vs →
      oc.preco_limite < ov.preco_limite := by
  induction compra, venda, mercado, agentes using executarLoop.induct ativo with
  | case1 venda mercado agentes =>
      intro oc cs ov vs hc _
      rw [executarLoop.eq_1] at hc
      simp at hc
  | case2 compra mercado agentes hne =>
      intro oc cs ov vs _ hv
      rw [executarLoop.eq_2 ativo compra mercado agentes hne] at hv
      simp at hv
  | case3 oc0 cs0 ov0 vs0 mercado agentes hcross ih =>
      intro oc cs ov vs hc hv
      rw [executarLoop.eq_3, if_pos hcross] at hc hv
      exact ih oc cs ov vs hc hv
  | case4 oc0 cs0 ov0 vs0 mercado agentes hncross =>
      intro oc cs ov vs hc hv
      rw [executarLoop_parada ativo oc0 ov0 cs0 vs0 mercado agentes hncross] at hc hv
      simp only [ResultadoClear.compra, ResultadoClear.venda, List.cons.injEq] at hc hv
      rw [← hc.1, ← hv.1]
      exact not_le.mp hncross

theorem executarLoop_sorted (ativo : String) (compra venda : List Ordem)
    (mercado : Mercado) (agentes : List Agente) :
    List.Pairwise (fun a b => leCompra a b = true) compra →
    List.Pairwise (fun a b => leVenda a b = true) venda →
    List.Pairwise (fun a b => leCompra a b = true)
        (executarLoop ativo compra venda mercado agentes).compra
    ∧ List.Pairwise (fun a b => leVenda a b = true)
        (executarLoop ativo compra venda mercado agentes).venda := by
  induction compra, venda, mercado, agentes using executarLoop.induct ativo with
  | case1 venda mercado agentes =>
      intro _ hv
      rw [executarLoop.eq_1]
      exact ⟨List.Pairwise.nil, hv⟩
  | case2 compra mercado agentes hne =>
      intro hc _
      rw [executarLoop.eq_2 ativo compra mercado agentes hne]
      exact ⟨hc, List.Pairwise.nil⟩
  | case3 oc0 cs0 ov0 vs0 mercado agentes hcross ih =>
      intro hc hv
      rw [List.pairwise_cons] at hc hv
      rw [executarLoop.eq_3, if_pos hcross]
      refine ih ?_ ?_
      · split
        · exact hc.2
        · exact List.pairwise_cons.mpr ⟨fun b hb => hc.1 b hb, hc.2⟩
      · split
        · exact hv.2
        · exact List.pairwise_cons.mpr ⟨fun b hb => hv.1 b hb, hv.2⟩
  | case4 oc0 cs0 ov0 vs0 mercado agentes hncross =>
      intro hc hv
      rw [executarLoop_parada ativo oc0 ov0 cs0 vs0 mercado agentes hncross]
      exact ⟨hc, hv⟩

theorem adicionar_ordem_prefixo_compra (book : OrderBook) (o : Ordem) (k : String) :
    ∃ resto, ((book.ordens_compra k).getD []) ++ resto
      = ((book.adicionar_ordem o).ordens_compra k).getD [] := by
  unfold OrderBook.adicionar_ordem
  split
  · by_cases hk : k = o.ativo
    · subst hk
      exact ⟨[o], by simp [setdefaultAppend]⟩
    · exact ⟨[], by simp [setdefaultAppend, hk]⟩
  · split
    · exact ⟨[], by simp⟩
    · exact ⟨[], by simp⟩

theorem adicionar_ordem_prefixo_venda (book : OrderBook) (o : Ordem) (k : String) :
    ∃ resto, ((book.ordens_venda k).getD []) ++ resto
      = ((book.adicionar_ordem o).ordens_venda k).getD [] := by
  unfold OrderBook.adicionar_ordem
  split
  · exact ⟨[], by simp⟩
  · split
    · by_cases hk : k = o.ativo
      · subst hk
        exact ⟨[o], by simp [setdefaultAppend]⟩
      · exact ⟨[], by simp [setdefaultAppend, hk]⟩
    · exact ⟨[], by simp⟩

theorem gerar_prefixo_compra (novas : List Ordem) (book : OrderBook) (k : String) :
    ∃ resto, ((book.ordens_compra k).getD []) ++ resto
      = ((gerar_e_adicionar_ordens novas book).ordens_compra k).getD [] := by
  induction novas generalizing book with
  | nil => exact ⟨[], by simp [gerar_e_adicionar_ordens]⟩
  | cons o os ih =>
      obtain ⟨r1, h1⟩ := adicionar_ordem_prefixo_compra book o k
      obtain ⟨r2, h2⟩ := ih (book.adicionar_ordem o)
      refine ⟨r1 ++ r2, ?_⟩
      have hfold : gerar_e_adicionar_ordens (o :: os) book
          = gerar_e_adicionar_ordens os (book.adicionar_ordem o) := rfl
      rw [hfold, ← h2, ← h1, List.append_assoc]

theorem gerar_prefixo_venda (novas : List Ordem) (book : OrderBook) (k : String) :
    ∃ resto, ((book.ordens_venda k).getD []) ++ resto
      = ((gerar_e_adicionar_ordens novas book).ordens_venda k).getD [] := by
  induction novas generalizing book with
  | nil => exact ⟨[], by simp [gerar_e_adicionar_ordens]⟩
  | cons o os ih =>
      obtain ⟨r1, h1⟩ := adicionar_ordem_prefixo_venda book o k
      obtain ⟨r2, h2⟩ := ih (book.adicionar_ordem o)
      refine ⟨r1 ++ r2, ?_⟩
      have hfold : gerar_e_adicionar_ordens (o :: os) book
          = gerar_e_adicionar_ordens os (book.adicionar_ordem o) := rfl
      rw [hfold, ← h2, ← h1, List.append_assoc]

/-- C2: for every execution of a `Transacao` with quantity `q` and execution
price `p` between a buyer and a (distinct) seller, the buyer's cash balance
decreases by exactly `q * p` and the seller's cash balance increases by exactly
`q * p`; consequently, for every sequence of transaction executions (all agent
references valid, as Python object references always are), the total cash over
all agents is unchanged. -/
theorem C2_conservacao_de_caixa (t : Transacao) (ags : List Agente) (a b : Agente)
    (ts : List Transacao)
    (ha : ags[t.comprador]? = some a) (hb : ags[t.vendedor]? = some b)
    (hne : t.comprador ≠ t.vendedor)
    (hts : ∀ u ∈ ts, u.comprador < ags.length ∧ u.vendedor < ags.length) :
    ((t.executar ags)[t.comprador]?).map Agente.saldo
        = some (a.saldo - (t.quantidade : ℚ) * t.preco_execucao)
  ∧ ((t.executar ags)[t.vendedor]?).map Agente.saldo
        = some (b.saldo + (t.quantidade : ℚ) * t.preco_execucao)
  ∧ totalSaldo (t.executar ags) = totalSaldo ags
  ∧ totalSaldo (execSeq ts ags) = totalSaldo ags := by
  refine ⟨?_, ?_, ?_, totalSaldo_execSeq ts ags hts⟩
  · rw [executar_get_comprador t ags a ha hne]
    simp [carteiraComprador_saldo, debita_saldo]
  · rw [executar_get_vendedor t ags b hb hne]
    simp [carteiraVendedor_saldo, credita_saldo]
  · exact totalSaldo_executar t ags (List.getElem?_eq_some_iff.mp ha).1
      (List.getElem?_eq_some_iff.mp hb).1

/-- Witness for C2: the conservation theorem applied at a concrete heap. -/
theorem C2_conservacao_de_caixa_witness :
    ((t0.executar [agA, agB])[t0.comprador]?).map Agente.saldo
        = some (agA.saldo - (t0.quantidade : ℚ) * t0.preco_execucao)
  ∧ ((t0.executar [agA, agB])[t0.vendedor]?).map Agente.saldo
        = some (agB.saldo + (t0.quantidade : ℚ) * t0.preco_execucao)
  ∧ totalSaldo (t0.executar [agA, agB]) = totalSaldo [agA, agB]
  ∧ totalSaldo (execSeq [t0] [agA, agB]) = totalSaldo [agA, agB] :=
  C2_conservacao_de_caixa t0 [agA, agB] agA agB [t0] rfl rfl (by decide)
    (by
      intro u hu
      rw [List.mem_singleton] at hu
      subst hu
      exact ⟨by norm_num [t0], by norm_num [t0]⟩)

/-- C3 counterexample: when the seller holds no entry for the traded
instrument, `Transacao.executar` adds `quantidade` to the buyer but removes
nothing from the seller, so the total holdings of the instrument change. -/
theorem C3_contraexemplo :
    totalCarteira
        (Transacao.executar ⟨0, 1, "X", 1, 1⟩
          [⟨"A", 0, fun _ => none⟩, ⟨"B", 0, fun _ => none⟩]) "X"
      ≠ totalCarteira [(⟨"A", 0, fun _ => none⟩ : Agente), ⟨"B", 0, fun _ => none⟩] "X" := by
  decide

/-- C3 (amended): holdings conservation holds for every transaction whose
seller holds an entry for the traded instrument (and, through `SeqOk`, for
every sequence of such transactions): the quantity added to the buyer equals
the quantity removed from the seller, and the total holdings of every
instrument are unchanged.  (Without that proviso the source violates the
claim, see the counterexample: the seller-side update is guarded by
`if self.ativo in self.vendedor.carteira`.) -/
theorem C3_conservacao_de_carteira (t : Transacao) (ags : List Agente) (a b : Agente)
    (ts : List Transacao)
    (ha : ags[t.comprador]? = some a) (hb : ags[t.vendedor]? = some b)
    (hne : t.comprador ≠ t.vendedor) (hp : (b.carteira t.ativo).isSome = true)
    (hts : SeqOk ts ags) :
    ((t.executar ags)[t.comprador]?).map (carteiraEm t.ativo)
        = some (carteiraEm t.ativo a + t.quantidade)
  ∧ ((t.executar ags)[t.vendedor]?).map (carteiraEm t.ativo)
        = some (carteiraEm t.ativo b - t.quantidade)
  ∧ (∀ k, totalCarteira (t.executar ags) k = totalCarteira ags k)
  ∧ (∀ k, totalCarteira (execSeq ts ags) k = totalCarteira ags k) := by
  refine ⟨?_, ?_, ?_, fun k => totalCarteira_execSeq ts ags hts k⟩
  · rw [executar_get_comprador t ags a ha hne]
    have h := get0_carteiraComprador t (debitaComprador t a) t.ativo
    simp only [debita_carteira, if_pos rfl] at h
    simp [carteiraEm, h]
  · rw [executar_get_vendedor t ags b hb hne]
    have hpc : ((creditaVendedor t b).carteira t.ativo).isSome = true := by
      rw [credita_carteira]
      exact hp
    have h := get0_carteiraVendedor t (creditaVendedor t b) hpc t.ativo
    simp only [credita_carteira, if_pos rfl] at h
    simp [carteiraEm, h]
  · intro k
    exact totalCarteira_executar t ags b (List.getElem?_eq_some_iff.mp ha).1 hb hp k

/-- Witness for the amended C3 at a concrete heap (seller `agB` holds "X"). -/
theorem C3_conservacao_de_carteira_witness :
    ((t0.executar [agA, agB])[t0.comprador]?).map (carteiraEm t0.ativo)
        = some (carteiraEm t0.ativo agA + t0.quantidade)
  ∧ ((t0.executar [agA, agB])[t0.vendedor]?).map (carteiraEm t0.ativo)
        = some (carteiraEm t0.ativo agB - t0.quantidade)
  ∧ (∀ k, totalCarteira (t0.executar [agA, agB]) k = totalCarteira [agA, agB] k)
  ∧ (∀ k, totalCarteira (execSeq [] [agA, agB]) k = totalCarteira [agA, agB] k) :=
  C3_conservacao_de_carteira t0 [agA, agB] agA agB [] rfl rfl (by decide) (by decide)
    trivial

/-- C1: in every iteration of the matching loop of `executar_ordens` in which
both collections are non-empty (head orders `oc`, `ov`) and the best BUY limit
is ≥ the best SELL limit, exactly one transaction is constructed and executed:
its execution price is the midpoint `(oc.preco_limite + ov.preco_limite) / 2`,
its quantity is `min oc.quantidade ov.quantidade`, the market's reference
price for the instrument is then set to that execution price (the market
passed to the rest of the pass maps `ativo` to the midpoint), the agents are
updated by exactly that transaction, and the head quantities are decremented
with heads popped at zero. -/
theorem C1_execucao_no_cruzamento (ativo : String) (oc ov : Ordem)
    (cs vs : List Ordem) (mercado : Mercado) (agentes : List Agente)
    (h : ov.preco_limite ≤ oc.preco_limite) :
    executarLoop ativo (oc :: cs) (ov :: vs) mercado agentes =
      (let t : Transacao := ⟨oc.agente, ov.agente, ativo,
        min oc.quantidade ov.quantidade, (oc.preco_limite + ov.preco_limite) / 2⟩
       let mercado2 : Mercado := ⟨fun k => if k = ativo
         then (oc.preco_limite + ov.preco_limite) / 2 else mercado.ativos k⟩
       let r := executarLoop ativo
         (if oc.quantidade - min oc.quantidade ov.quantidade = 0 then cs
          else { oc with quantidade := oc.quantidade - min oc.quantidade ov.quantidade } :: cs)
         (if ov.quantidade - min oc.quantidade ov.quantidade = 0 then vs
          else { ov with quantidade := ov.quantidade - min oc.quantidade ov.quantidade } :: vs)
         mercado2 (t.executar agentes)
       ⟨r.compra, r.venda, r.mercado, r.agentes, t :: r.transacoes⟩)
    ∧ (executarLoop ativo (oc :: cs) (ov :: vs) mercado agentes).transacoes.head?
        = some ⟨oc.agente, ov.agente, ativo, min oc.quantidade ov.quantidade,
            (oc.preco_limite + ov.preco_limite) / 2⟩ := by
  constructor
  · rw [executarLoop.eq_3, if_pos h]
  · rw [executarLoop.eq_3, if_pos h]
    rfl

/-- Witness for C1 at the specification's crossing scenario (BUY 2 @ 51
against SELL 2 @ 49): the transaction of the iteration has quantity
`min 2 2 = 2` and price `(51 + 49) / 2 = 50`. -/
theorem C1_execucao_no_cruzamento_witness :
    ordemVendaX.preco_limite ≤ ordemCompraX.preco_limite
  ∧ (executarLoop "X" [ordemCompraX] [ordemVendaX] mercado50 [agA, agB]).transacoes.head?
      = some ⟨ordemCompraX.agente, ordemVendaX.agente, "X",
          min ordemCompraX.quantidade ordemVendaX.quantidade,
          (ordemCompraX.preco_limite + ordemVendaX.preco_limite) / 2⟩ :=
  ⟨by norm_num [ordemCompraX, ordemVendaX],
   (C1_execucao_no_cruzamento "X" ordemCompraX ordemVendaX [] [] mercado50 [agA, agB]
      (by norm_num [ordemCompraX, ordemVendaX])).2⟩

theorem executar_ordens_sem_cruzamento (book : OrderBook) (ativo : String)
    (mercado : Mercado) (agentes : List Agente)
    (h : ∀ oc ∈ (book.ordens_compra ativo).getD [],
        ∀ ov ∈ (book.ordens_venda ativo).getD [],
        oc.preco_limite < ov.preco_limite) :
    (executar_ordens book ativo mercado agentes).2.1 = mercado
  ∧ (executar_ordens book ativo mercado agentes).2.2.1 = agentes
  ∧ (executar_ordens book ativo mercado agentes).2.2.2 = []
  ∧ (∀ k, (((executar_ordens book ativo mercado agentes).1.ordens_compra k).getD []).Perm
        ((book.ordens_compra k).getD []))
  ∧ (∀ k, (((executar_ordens book ativo mercado agentes).1.ordens_venda k).getD []).Perm
        ((book.ordens_venda k).getD [])) := by
  cases hcb : book.ordens_compra ativo with
  | none =>
      cases hvb : book.ordens_venda ativo with
      | none => simp [executar_ordens, hcb, hvb, List.Perm.refl]
      | some lv => simp [executar_ordens, hcb, hvb, List.Perm.refl]
  | some lc =>
      cases hvb : book.ordens_venda ativo with
      | none => simp [executar_ordens, hcb, hvb, List.Perm.refl]
      | some lv =>
          rw [hcb, hvb] at h
          simp only [Option.getD_some] at h
          have h2 : ∀ oc ∈ lc.mergeSort leCompra, ∀ ov ∈ lv.mergeSort leVenda,
              oc.preco_limite < ov.preco_limite := by
            intro oc hoc ov hov
            exact h oc (List.mem_mergeSort.mp hoc) ov (List.mem_mergeSort.mp hov)
          simp only [executar_ordens, hcb, hvb,
            executarLoop_noop ativo _ _ mercado agentes h2]
          refine ⟨by trivial, by trivial, by trivial, ?_, ?_⟩
          · intro k
            by_cases hk : k = ativo
            · subst hk
              simp only [if_pos rfl, Option.getD_some, hcb]
              exact List.mergeSort_perm lc leCompra
            · simp only [if_neg hk]
              exact List.Perm.refl _
          · intro k
            by_cases hk : k = ativo
            · subst hk
              simp only [if_pos rfl, Option.getD_some, hvb]
              exact List.mergeSort_perm lv leVenda
            · simp only [if_neg hk]
              exact List.Perm.refl _

/-- C5: if at the start of a clearing pass either side's collection for the
instrument is empty or every resident BUY limit is below every resident SELL
limit (equivalently: the best BUY limit is strictly less than the best SELL
limit), then the pass executes no transaction, leaves every agent and the
market untouched, and leaves both collections of every instrument resident
with unchanged orders (up to the in-place sort, i.e. as a permutation). -/
theorem C5_sem_cruzamento (book : OrderBook) (ativo : String)
    (mercado : Mercado) (agentes : List Agente)
    (h : ∀ oc ∈ (book.ordens_compra ativo).getD [],
        ∀ ov ∈ (book.ordens_venda ativo).getD [],
        oc.preco_limite < ov.preco_limite) :
    (executar_ordens book ativo mercado agentes).2.2.2 = []
  ∧ (executar_ordens book ativo mercado agentes).2.1 = mercado
  ∧ (executar_ordens book ativo mercado agentes).2.2.1 = agentes
  ∧ (∀ k, (((executar_ordens book ativo mercado agentes).1.ordens_compra k).getD []).Perm
        ((book.ordens_compra k).getD []))
  ∧ (∀ k, (((executar_ordens book ativo mercado agentes).1.ordens_venda k).getD []).Perm
        ((book.ordens_venda k).getD [])) := by
  obtain ⟨h1, h2, h3, h4, h5⟩ := executar_ordens_sem_cruzamento book ativo mercado agentes h
  exact ⟨h3, h1, h2, h4, h5⟩

/-- Witness for C5 at the specification's no-crossing scenario
(BUY best 9 < SELL best 10). -/
theorem C5_sem_cruzamento_witness :
    (executar_ordens bookSemCruzamento "X" mercado50 [agA, agB]).2.2.2 = []
  ∧ (executar_ordens bookSemCruzamento "X" mercado50 [agA, agB]).2.1 = mercado50
  ∧ (executar_ordens bookSemCruzamento "X" mercado50 [agA, agB]).2.2.1 = [agA, agB]
  ∧ (∀ k, (((executar_ordens bookSemCruzamento "X" mercado50 [agA, agB]).1.ordens_compra k).getD []).Perm
        ((bookSemCruzamento.ordens_compra k).getD []))
  ∧ (∀ k, (((executar_ordens bookSemCruzamento "X" mercado50 [agA, agB]).1.ordens_venda k).getD []).Perm
        ((bookSemCruzamento.ordens_venda k).getD [])) :=
  C5_sem_cruzamento bookSemCruzamento "X" mercado50 [agA, agB]
    (by
      intro oc hoc ov hov
      simp [bookSemCruzamento] at hoc hov
      subst hoc
      subst hov
      norm_num)

/-- C7 counterexample: at a crossing book the pass generates a non-empty
transaction list, yet the Python method's value is `None` — the caller never
receives the generated transactions. -/
theorem C7_contraexemplo :
    executar_ordens_ret bookCruzamento "X" mercado50 [agA, agB]
      ≠ some ((executar_ordens bookCruzamento "X" mercado50 [agA, agB]).2.2.2)
  ∧ (executar_ordens bookCruzamento "X" mercado50 [agA, agB]).2.2.2 ≠ [] := by
  have hc : bookCruzamento.ordens_compra "X" = some [ordemCompraX] := by
    simp [bookCruzamento]
  have hv : bookCruzamento.ordens_venda "X" = some [ordemVendaX] := by
    simp [bookCruzamento]
  have htr : (executar_ordens bookCruzamento "X" mercado50 [agA, agB]).2.2.2
      = (executarLoop "X" [ordemCompraX] [ordemVendaX] mercado50 [agA, agB]).transacoes := by
    simp only [executar_ordens, hc, hv, List.mergeSort_singleton]
  have hhead : (executarLoop "X" [ordemCompraX] [ordemVendaX]
        mercado50 [agA, agB]).transacoes.head?
      = some ⟨0, 1, "X", 2, 50⟩ := by
    rw [executarLoop.eq_3, if_pos (by norm_num [ordemCompraX, ordemVendaX])]
    norm_num [ordemCompraX, ordemVendaX]
  constructor
  · simp [executar_ordens_ret]
  · rw [htr]
    intro heq
    rw [heq] at hhead
    simp at hhead

/-- C7 (amended): `executar_ordens` has no return statement, so its value is
`None` — the generated transactions are applied as side effects on agents and
market, not returned; and when no crossing is possible the pass is a normal
no-op, executing no transaction and raising no error. -/
theorem C7_retorno (book : OrderBook) (ativo : String) (mercado : Mercado)
    (agentes : List Agente)
    (h : ∀ oc ∈ (book.ordens_compra ativo).getD [],
        ∀ ov ∈ (book.ordens_venda ativo).getD [],
        oc.preco_limite < ov.preco_limite) :
    executar_ordens_ret book ativo mercado agentes = none
  ∧ (executar_ordens book ativo mercado agentes).2.2.2 = []
  ∧ (executar_ordens book ativo mercado agentes).2.2.1 = agentes := by
  obtain ⟨h1, h2, h3, _, _⟩ := executar_ordens_sem_cruzamento book ativo mercado agentes h
  exact ⟨rfl, h3, h2⟩

/-- Witness for the amended C7 at a concrete no-crossing book. -/
theorem C7_retorno_witness :
    executar_ordens_ret bookSemCruzamentoY "Y" mercado50 [agA, agB] = none
  ∧ (executar_ordens bookSemCruzamentoY "Y" mercado50 [agA, agB]).2.2.2 = []
  ∧ (executar_ordens bookSemCruzamentoY "Y" mercado50 [agA, agB]).2.2.1 = [agA, agB] :=
  C7_retorno bookSemCruzamentoY "Y" mercado50 [agA, agB]
    (by
      intro oc hoc ov hov
      simp [bookSemCruzamentoY] at hoc hov
      subst hoc
      subst hov
      norm_num)

/-- C6 counterexample: an order with limit price 0 and quantity 0 is accepted
by `adicionar_ordem` and enters the BUY collection: there is no validation and
no error path at submission (contrary to the claimed fail-fast rejection). -/
theorem C6_contraexemplo :
    (OrderBook.adicionar_ordem ⟨fun _ => none, fun _ => none⟩
        ⟨"compra", 0, "X", 0, 0⟩).ordens_compra "X"
      = some [⟨"compra", 0, "X", 0, 0⟩] := by
  simp [OrderBook.adicionar_ordem, setdefaultAppend]

/-- C6 (amended): submission performs no validation: an order with
non-positive limit price or non-positive quantity is accepted exactly like any
other order — appended to the BUY collection when its side is "compra" and to
the SELL collection when its side is "venda" — and no rejection or error
happens at submission (nor anywhere else: the matching loop only tests price
crossing and pops zero-quantity heads). -/
theorem C6_sem_validacao (book : OrderBook) (o : Ordem)
    (hbad : o.preco_limite ≤ 0 ∨ o.quantidade ≤ 0) :
    (o.tipo = "compra" →
      (book.adicionar_ordem o).ordens_compra o.ativo
        = some ((book.ordens_compra o.ativo).getD [] ++ [o]))
  ∧ (o.tipo = "venda" →
      (book.adicionar_ordem o).ordens_venda o.ativo
        = some ((book.ordens_venda o.ativo).getD [] ++ [o])) := by
  constructor
  · intro ht
    simp [OrderBook.adicionar_ordem, ht, setdefaultAppend]
  · intro ht
    have hnc : ¬ o.tipo = "compra" := by
      rw [ht]
      decide
    simp [OrderBook.adicionar_ordem, ht, hnc, setdefaultAppend]

/-- Witness for the amended C6: a zero-price zero-quantity BUY order enters
the (empty) book. -/
theorem C6_sem_validacao_witness :
    (OrderBook.adicionar_ordem ⟨fun _ => none, fun _ => none⟩
        ⟨"compra", 7, "Z", 0, 0⟩).ordens_compra "Z"
      = some ((((⟨fun _ => none, fun _ => none⟩ : OrderBook).ordens_compra "Z").getD [])
          ++ [⟨"compra", 7, "Z", 0, 0⟩]) :=
  (C6_sem_validacao ⟨fun _ => none, fun _ => none⟩ ⟨"compra", 7, "Z", 0, 0⟩
      (Or.inl (by norm_num))).1 rfl

/-- C8: `adicionar_ordem` is a silent no-op (the book is returned unchanged)
when the order's side is neither "compra" nor "venda"; otherwise it appends
the order to exactly one collection — the BUY collection for "compra", the
SELL collection for "venda" — keyed by the order's instrument, touching no
other instrument's list and never the opposite mapping; so a submitted order
never appears in both collections and submission has no other effect. -/
theorem C8_submissao (book : OrderBook) (o : Ordem) :
    (o.tipo ≠ "compra" → o.tipo ≠ "venda" → book.adicionar_ordem o = book)
  ∧ (o.tipo = "compra" →
      (book.adicionar_ordem o).ordens_compra o.ativo
          = some ((book.ordens_compra o.ativo).getD [] ++ [o])
      ∧ (∀ k, k ≠ o.ativo →
          (book.adicionar_ordem o).ordens_compra k = book.ordens_compra k)
      ∧ (book.adicionar_ordem o).ordens_venda = book.ordens_venda)
  ∧ (o.tipo = "venda" →
      (book.adicionar_ordem o).ordens_venda o.ativo
          = some ((book.ordens_venda o.ativo).getD [] ++ [o])
      ∧ (∀ k, k ≠ o.ativo →
          (book.adicionar_ordem o).ordens_venda k = book.ordens_venda k)
      ∧ (book.adicionar_ordem o).ordens_compra = book.ordens_compra) := by
  refine ⟨?_, ?_, ?_⟩
  · intro h1 h2
    simp [OrderBook.adicionar_ordem, h1, h2]
  · intro ht
    refine ⟨?_, ?_, ?_⟩
    · simp [OrderBook.adicionar_ordem, ht, setdefaultAppend]
    · intro k hk
      simp [OrderBook.adicionar_ordem, ht, setdefaultAppend, hk]
    · simp [OrderBook.adicionar_ordem, ht]
  · intro ht
    have hnc : ¬ o.tipo = "compra" := by
      rw [ht]
      decide
    refine ⟨?_, ?_, ?_⟩
    · simp [OrderBook.adicionar_ordem, ht, hnc, setdefaultAppend]
    · intro k hk
      simp [OrderBook.adicionar_ordem, ht, hnc, setdefaultAppend, hk]
    · simp [OrderBook.adicionar_ordem, ht, hnc]

/-- Witness for C8: a "hold" order (unrecognized side) leaves the book
exactly unchanged. -/
theorem C8_submissao_witness :
    OrderBook.adicionar_ordem ⟨fun _ => none, fun _ => none⟩ ⟨"hold", 0, "X", 10, 1⟩
      = (⟨fun _ => none, fun _ => none⟩ : OrderBook) :=
  (C8_submissao ⟨fun _ => none, fun _ => none⟩ ⟨"hold", 0, "X", 10, 1⟩).1
    (by decide) (by decide)

theorem leCompra_trans : ∀ a b c : Ordem,
    leCompra a b = true → leCompra b c = true → leCompra a c = true := by
  intro a b c hab hbc
  simp only [leCompra, decide_eq_true_eq] at hab hbc ⊢
  exact le_trans hbc hab

theorem leCompra_total : ∀ a b : Ordem, (leCompra a b || leCompra b a) = true := by
  intro a b
  simp only [leCompra, Bool.or_eq_true, decide_eq_true_eq]
  exact le_total b.preco_limite a.preco_limite

theorem leVenda_trans : ∀ a b c : Ordem,
    leVenda a b = true → leVenda b c = true → leVenda a c = true := by
  intro a b c hab hbc
  simp only [leVenda, decide_eq_true_eq] at hab hbc ⊢
  exact le_trans hab hbc

theorem leVenda_total : ∀ a b : Ordem, (leVenda a b || leVenda b a) = true := by
  intro a b
  simp only [leVenda, Bool.or_eq_true, decide_eq_true_eq]
  exact le_total a.preco_limite b.preco_limite

theorem executarLoop_exaurido (ativo : String) (compra venda : List Ordem)
    (mercado : Mercado) (agentes : List Agente) (m2 : Mercado) (ags2 : List Agente) :
    executarLoop ativo (executarLoop ativo compra venda mercado agentes).compra
        (executarLoop ativo compra venda mercado agentes).venda m2 ags2
      = ⟨(executarLoop ativo compra venda mercado agentes).compra,
         (executarLoop ativo compra venda mercado agentes).venda, m2, ags2, []⟩ := by
  cases hC : (executarLoop ativo compra venda mercado agentes).compra with
  | nil => rw [executarLoop.eq_1]
  | cons oc cs =>
      cases hV : (executarLoop ativo compra venda mercado agentes).venda with
      | nil => exact executarLoop_nil_venda ativo (oc :: cs) m2 ags2
      | cons ov vs =>
          exact executarLoop_parada ativo oc ov cs vs m2 ags2
            (not_le.mpr
              (executarLoop_parada_final ativo compra venda mercado agentes
                oc cs ov vs hC hV))

/-- C9: clearing is idempotent once exhausted: calling `executar_ordens` again
for the same instrument, with no submissions in between, executes no
transaction and returns the order book, the market and the agent heap exactly
unchanged. -/
theorem C9_idempotencia (book : OrderBook) (ativo : String) (mercado : Mercado)
    (agentes : List Agente) :
    executar_ordens (executar_ordens book ativo mercado agentes).1 ativo
        (executar_ordens book ativo mercado agentes).2.1
        (executar_ordens book ativo mercado agentes).2.2.1
      = ((executar_ordens book ativo mercado agentes).1,
         (executar_ordens book ativo mercado agentes).2.1,
         (executar_ordens book ativo mercado agentes).2.2.1, []) := by
  cases hcb : book.ordens_compra ativo with
  | none =>
      simp only [executar_ordens, hcb]
  | some lc =>
      cases hvb : book.ordens_venda ativo with
      | none =>
          simp only [executar_ordens, hcb, hvb]
      | some lv =>
          have hfst : executar_ordens book ativo mercado agentes
              = (⟨fun k => if k = ativo
                    then some (executarLoop ativo (lc.mergeSort leCompra)
                      (lv.mergeSort leVenda) mercado agentes).compra
                    else book.ordens_compra k,
                  fun k => if k = ativo
                    then some (executarLoop ativo (lc.mergeSort leCompra)
                      (lv.mergeSort leVenda) mercado agentes).venda
                    else book.ordens_venda k⟩,
                 (executarLoop ativo (lc.mergeSort leCompra)
                   (lv.mergeSort leVenda) mercado agentes).mercado,
                 (executarLoop ativo (lc.mergeSort leCompra)
                   (lv.mergeSort leVenda) mercado agentes).agentes,
                 (executarLoop ativo (lc.mergeSort leCompra)
                   (lv.mergeSort leVenda) mercado agentes).transacoes) := by
            simp only [executar_ordens, hcb, hvb]
          have hsorted := executarLoop_sorted ativo (lc.mergeSort leCompra)
            (lv.mergeSort leVenda) mercado agentes
            (List.sorted_mergeSort leCompra_trans leCompra_total lc)
            (List.sorted_mergeSort leVenda_trans leVenda_total lv)
          rw [hfst]
          simp only [executar_ordens, eq_self_iff_true, if_true]
          rw [List.mergeSort_of_sorted hsorted.1, List.mergeSort_of_sorted hsorted.2]
          rw [executarLoop_exaurido]
          simp only [Prod.mk.injEq, and_true]
          congr 1
          · funext k
            by_cases hk : k = ativo
            · subst hk
              simp
            · simp [hk]
          · funext k
            by_cases hk : k = ativo
            · subst hk
              simp
            · simp [hk]

/-- C4: the sorts of `executar_ordens` are by limit price only — descending
for BUY, ascending for SELL — and stable: two orders with equal limit prices
keep their submission order in the sorted collection; and in the concrete
price-time scenario (two BUYs at 10 submitted in order, one SELL at 9 with
quantity for only one) the earlier BUY (agent 0) is the one filled and
removed, while the later BUY stays resident. -/
theorem C4_prioridade_preco_tempo :
    (∀ l : List Ordem, List.Pairwise (fun a b => b.preco_limite ≤ a.preco_limite)
        (l.mergeSort leCompra))
  ∧ (∀ l : List Ordem, List.Pairwise (fun a b => a.preco_limite ≤ b.preco_limite)
        (l.mergeSort leVenda))
  ∧ (∀ (l : List Ordem) (a b : Ordem), a.preco_limite = b.preco_limite →
        [a, b].Sublist l → [a, b].Sublist (l.mergeSort leCompra))
  ∧ (∀ (l : List Ordem) (a b : Ordem), a.preco_limite = b.preco_limite →
        [a, b].Sublist l → [a, b].Sublist (l.mergeSort leVenda))
  ∧ (executar_ordens bookPrioridade "X" mercado50 [agA, agB, agC]).1.ordens_compra "X"
      = some [ordemB2]
  ∧ (executar_ordens bookPrioridade "X" mercado50 [agA, agB, agC]).2.2.2
      = [⟨0, 2, "X", 1, 19/2⟩] := by
  have hc : bookPrioridade.ordens_compra "X" = some [ordemB1, ordemB2] := by
    simp [bookPrioridade]
  have hv : bookPrioridade.ordens_venda "X" = some [ordemS1] := by
    simp [bookPrioridade]
  have hsort : [ordemB1, ordemB2].mergeSort leCompra = [ordemB1, ordemB2] :=
    List.mergeSort_of_sorted
      (by simp [List.pairwise_cons, leCompra, ordemB1, ordemB2])
  have hcross : ordemS1.preco_limite ≤ ordemB1.preco_limite := by
    norm_num [ordemS1, ordemB1]
  have hloop : executarLoop "X" [ordemB1, ordemB2] [ordemS1] mercado50 [agA, agB, agC]
      = ⟨[ordemB2], [],
         ⟨fun k => if k = "X" then (ordemB1.preco_limite + ordemS1.preco_limite) / 2
           else mercado50.ativos k⟩,
         Transacao.executar ⟨ordemB1.agente, ordemS1.agente, "X",
             min ordemB1.quantidade ordemS1.quantidade,
             (ordemB1.preco_limite + ordemS1.preco_limite) / 2⟩ [agA, agB, agC],
         [⟨ordemB1.agente, ordemS1.agente, "X", min ordemB1.quantidade ordemS1.quantidade,
             (ordemB1.preco_limite + ordemS1.preco_limite) / 2⟩]⟩ := by
    rw [executarLoop.eq_3, if_pos hcross]
    norm_num [ordemB1, ordemB2, ordemS1]
    rw [executarLoop_nil_venda]
    exact ⟨rfl, rfl, rfl, rfl, rfl⟩
  refine ⟨?_, ?_, ?_, ?_, ?_, ?_⟩
  · intro l
    exact (List.sorted_mergeSort leCompra_trans leCompra_total l).imp
      (fun h => of_decide_eq_true h)
  · intro l
    exact (List.sorted_mergeSort leVenda_trans leVenda_total l).imp
      (fun h => of_decide_eq_true h)
  · intro l a b hp hsub
    exact List.pair_sublist_mergeSort leCompra_trans leCompra_total
      (decide_eq_true hp.ge) hsub
  · intro l a b hp hsub
    exact List.pair_sublist_mergeSort leVenda_trans leVenda_total
      (decide_eq_true hp.le) hsub
  · simp only [executar_ordens, hc, hv, hsort, List.mergeSort_singleton, hloop]
    simp
  · simp only [executar_ordens, hc, hv, hsort, List.mergeSort_singleton, hloop]
    norm_num [ordemB1, ordemS1]

/-- Witness for C4: two concrete equal-price BUY orders, in submission order
around an unrelated SELL order, stay in that order after the BUY sort. -/
theorem C4_prioridade_preco_tempo_witness :
    ordemB1.preco_limite = ordemB2.preco_limite
  ∧ [ordemB1, ordemB2].Sublist ([ordemB1, ordemS1, ordemB2].mergeSort leCompra) :=
  ⟨by norm_num [ordemB1, ordemB2],
   C4_prioridade_preco_tempo.2.2.1 [ordemB1, ordemS1, ordemB2] ordemB1 ordemB2
     (by norm_num [ordemB1, ordemB2]) (by decide)⟩

/-- C10: unmatched orders persist across rounds.  The round loop threads one
order book through all rounds (running one more round continues from exactly
the state the previous rounds left — the book is never reconstructed); within
a round, the matching pass runs on the book obtained from the incoming book by
submitting the round's new orders; and submission only appends: for every
instrument, the resident BUY and SELL lists at the end of a round are prefixes
of the lists the next round's matching pass sorts, so every resident order
participates in the next round's matching together with that round's new
submissions. -/
theorem C10_persistencia_entre_rodadas (instrumentos : List String)
    (rodadas : List (ℚ × List Ordem)) (par : ℚ × List Ordem) (st : SimState) :
    (simular instrumentos (rodadas ++ [par]) st
      = (rodada instrumentos par.1 par.2 (simular instrumentos rodadas st)).1)
  ∧ (∀ (taxa : ℚ) (novas : List Ordem) (st2 : SimState),
      rodada instrumentos taxa novas st2
        = (let r := executar_ordens_e_atualizar_precos instrumentos
             (gerar_e_adicionar_ordens novas st2.order_book)
             (aplicar_inflacao st2.mercado taxa) st2.agentes
           (⟨r.1, r.2.1, r.2.2.1⟩, r.2.2.2)))
  ∧ (∀ (novas : List Ordem) (book : OrderBook) (k : String),
      ∃ resto, ((book.ordens_compra k).getD []) ++ resto
        = ((gerar_e_adicionar_ordens novas book).ordens_compra k).getD [])
  ∧ (∀ (novas : List Ordem) (book : OrderBook) (k : String),
      ∃ resto, ((book.ordens_venda k).getD []) ++ resto
        = ((gerar_e_adicionar_ordens novas book).ordens_venda k).getD []) := by
  refine ⟨?_, ?_, ?_, ?_⟩
  · simp [simular, List.foldl_append]
  · intro taxa novas st2
    rfl
  · exact gerar_prefixo_compra
  · exact gerar_prefixo_venda

end Simulador
